import Mathlib

/-!
Shallow embedding of the plan-parser driver
(`internal/parser/planparserv2/plan_parser_v2.go`): the Han-to-escape
normalizer, the compile pipeline with its result cache and lexer/parser
pool, and the three plan assemblers.  External collaborators (the ANTLR
grammar, the schema helper, the template-value resolver) are modelled
from the specification's description of their interfaces.
-/

namespace PlanParserV2

/-- Go strings are sequences of bytes that the `range` loop decodes as
runes; every claim here only inspects whole runes and the first byte of
a rune, so a string is modelled as its list of rune code points. -/
abbrev GoStr := List Nat

/-- First byte of the UTF-8 encoding of a rune.  For an ASCII rune this
is the code point itself; for a multi-byte rune it is a lead byte of
value at least 0xC0.  `convertHanToASCII` reads `s[i+1]`, a single byte,
right after a one-byte backslash rune, so that byte is exactly the first
byte of the following rune's encoding. -/
def firstUtf8Byte (r : Nat) : Nat :=
  if r < 0x80 then r
  else if r < 0x800 then 0xC0 + r / 64
  else if r < 0x10000 then 0xE0 + r / 4096
  else 0xF0 + r / 262144

/-- Modelled from the spec: the recognized escape set consulted by the
normalizer (`isEscapeCh` lives outside the excerpted file).  The spec
requires backslash-escape sequences, among them the escaped backslash,
to be copied through verbatim, so the set contains the backslash itself
together with the usual single-character escapes. -/
def isEscapeCh (b : Nat) : Bool :=
  b = 0x5C || b = 0x6E || b = 0x74 || b = 0x72 || b = 0x62 || b = 0x66 ||
    b = 0x22 || b = 0x27

/-- Modelled from Go's `unicode.Is(unicode.Han, r)`: membership of a rune
in the Han (CJK) script.  The principal ranges of the Han table are
reproduced; all of them lie far above the ASCII range. -/
def isHan (r : Nat) : Bool :=
  decide (0x2E80 ≤ r ∧ r ≤ 0x2EF3) || decide (0x2F00 ≤ r ∧ r ≤ 0x2FD5) ||
    decide (r = 0x3005) || decide (r = 0x3007) ||
    decide (0x3021 ≤ r ∧ r ≤ 0x3029) || decide (0x3038 ≤ r ∧ r ≤ 0x303B) ||
    decide (0x3400 ≤ r ∧ r ≤ 0x4DBF) || decide (0x4E00 ≤ r ∧ r ≤ 0x9FFF) ||
    decide (0xF900 ≤ r ∧ r ≤ 0xFA6D) || decide (0x20000 ≤ r ∧ r ≤ 0x2A6DF)

/-- Hexadecimal digit as an ASCII code point (lower case). -/
def hexDigit (n : Nat) : Nat :=
  if n < 10 then 48 + n else 87 + n

/-- Modelled from the spec: the deterministic ASCII escape encoding of a
CJK code point (`formatUnicode` lives outside the excerpted file); it
renders a backslash-u sequence followed by four lower-case hex digits. -/
def formatUnicode (c : Nat) : GoStr :=
  [0x5C, 0x75, hexDigit (c / 4096 % 16), hexDigit (c / 256 % 16),
    hexDigit (c / 16 % 16), hexDigit (c % 16)]

/-- The rune loop of `convertHanToASCII`.  The flag is Go's `skipCur`:
when set, the current rune is copied verbatim (it is the escaped
character of a backslash sequence).  `none` models the early
`return s` taken when a backslash is immediately followed by a byte
outside the recognized escape set. -/
def convertHanAux : Bool → GoStr → Option GoStr
  | _, [] => some []
  | true, r :: rest => (convertHanAux false rest).map (r :: ·)
  | false, r :: rest =>
      if r = 0x5C then
        if rest = [] then some [r]
        else if isEscapeCh (firstUtf8Byte rest.headI) then
          (convertHanAux true rest).map (r :: ·)
        else none
      else if isHan r then
        (convertHanAux false rest).map (formatUnicode r ++ ·)
      else (convertHanAux false rest).map (r :: ·)

/-- `convertHanToASCII` from the source: rewrite every Han rune into its
ASCII escape encoding, copy other runes through, copy the rune after a
recognized backslash escape verbatim, and return the input unchanged as
soon as a backslash is followed by an unrecognized escape byte. -/
def convertHanToASCII (s : GoStr) : GoStr :=
  match convertHanAux false s with
  | some out => out
  | none => s

/-- Left-to-right scan deciding whether `convertHanToASCII` takes its
abort path: true exactly when some backslash that is not itself consumed
as the escaped character of a preceding escape sequence is immediately
followed by a byte outside the recognized escape set. -/
def scanAborts : Bool → GoStr → Bool
  | _, [] => false
  | true, _ :: rest => scanAborts false rest
  | false, r :: rest =>
      if r = 0x5C then
        if rest = [] then false
        else if isEscapeCh (firstUtf8Byte rest.headI) then scanAborts true rest
        else true
      else scanAborts false rest

/-- The claim's premise on a raw string: some backslash rune is
immediately followed by a rune whose first byte is outside the
recognized escape set. -/
def hasBadEscape : GoStr → Bool
  | [] => false
  | [_] => false
  | r :: r2 :: rest =>
      (decide (r = 0x5C) && !isEscapeCh (firstUtf8Byte r2)) ||
        hasBadEscape (r2 :: rest)

theorem scanAborts_iff_aux_none (s : GoStr) :
    ∀ skip, scanAborts skip s = true ↔ convertHanAux skip s = none := by
  induction s with
  | nil => intro skip; simp [scanAborts, convertHanAux]
  | cons r rest ih =>
      intro skip
      cases skip with
      | true =>
          simp only [scanAborts, convertHanAux]
          cases h : convertHanAux false rest <;> simp [ih false, h]
      | false =>
          simp only [scanAborts, convertHanAux]
          by_cases hr : r = 0x5C
          · rw [if_pos hr, if_pos hr]
            by_cases hn : rest = []
            · rw [if_pos hn, if_pos hn]
              simp
            · rw [if_neg hn, if_neg hn]
              by_cases he : isEscapeCh (firstUtf8Byte rest.headI) = true
              · rw [if_pos he, if_pos he]
                cases h : convertHanAux true rest <;> simp [ih true, h]
              · rw [if_neg he, if_neg he]
                simp
          · rw [if_neg hr, if_neg hr]
            by_cases hh : isHan r = true
            · rw [if_pos hh]
              cases h : convertHanAux false rest <;> simp [ih false, h]
            · rw [if_neg hh]
              cases h : convertHanAux false rest <;> simp [ih false, h]

theorem isHan_eq_false_of_ascii {r : Nat} (h : r < 0x80) : isHan r = false := by
  simp only [isHan, Bool.or_eq_false_iff, decide_eq_false_iff_not]
  omega

theorem convertHanAux_ascii (s : GoStr) (hs : ∀ r ∈ s, r < 0x80) :
    ∀ skip out, convertHanAux skip s = some out → out = s := by
  induction s with
  | nil =>
      intro skip out h
      simp only [convertHanAux, Option.some.injEq] at h
      exact h.symm
  | cons r rest ih =>
      intro skip out h
      have hr : r < 0x80 := hs r (List.mem_cons_self r rest)
      have hrest : ∀ x ∈ rest, x < 0x80 := fun x hx => hs x (List.mem_cons_of_mem r hx)
      cases skip with
      | true =>
          simp only [convertHanAux] at h
          cases hfr : convertHanAux false rest with
          | none => rw [hfr] at h; exact absurd h (by simp)
          | some t =>
              rw [hfr] at h
              simp only [Option.map_some', Option.some.injEq] at h
              rw [← h, ih hrest false t hfr]
      | false =>
          simp only [convertHanAux] at h
          by_cases hbs : r = 0x5C
          · rw [if_pos hbs] at h
            by_cases hn : rest = []
            · rw [if_pos hn] at h
              simp only [Option.some.injEq] at h
              rw [← h, hn]
            · rw [if_neg hn] at h
              by_cases he : isEscapeCh (firstUtf8Byte rest.headI) = true
              · rw [if_pos he] at h
                cases hfr : convertHanAux true rest with
                | none => rw [hfr] at h; exact absurd h (by simp)
                | some t =>
                    rw [hfr] at h
                    simp only [Option.map_some', Option.some.injEq] at h
                    rw [← h, ih hrest true t hfr]
              · rw [if_neg he] at h
                exact absurd h (by simp)
          · rw [if_neg hbs, isHan_eq_false_of_ascii hr] at h
            simp only [Bool.false_eq_true, if_false] at h
            cases hfr : convertHanAux false rest with
            | none => rw [hfr] at h; exact absurd h (by simp)
            | some t =>
                rw [hfr] at h
                simp only [Option.map_some', Option.some.injEq] at h
                rw [← h, ih hrest false t hfr]

/-- C9: on ASCII-only input the normalizer is the identity, hence
idempotent there: a second application to the (ASCII-only) output
changes nothing. -/
theorem normalizer_ascii_identity (s : GoStr) (hs : ∀ r ∈ s, r < 0x80) :
    convertHanToASCII s = s ∧
      convertHanToASCII (convertHanToASCII s) = convertHanToASCII s := by
  have h1 : convertHanToASCII s = s := by
    unfold convertHanToASCII
    cases h : convertHanAux false s with
    | none => rfl
    | some out => exact convertHanAux_ascii s hs false out h
  exact ⟨h1, by rw [h1, h1]⟩

theorem normalizer_ascii_identity_witness :
    convertHanToASCII [0x61, 0x62, 0x63] = [0x61, 0x62, 0x63] ∧
      convertHanToASCII (convertHanToASCII [0x61, 0x62, 0x63]) =
        convertHanToASCII [0x61, 0x62, 0x63] :=
  normalizer_ascii_identity [0x61, 0x62, 0x63] (by decide)

/-- C5 counterexample: the input backslash-backslash-q-Han contains a
backslash (the second one) immediately followed by the unrecognized
byte for the letter q, yet the normalizer does not return the input
unchanged: the leading escaped backslash consumes the second backslash,
so the scan proceeds and rewrites the trailing Han rune. -/
theorem normalizer_bad_escape_not_identity :
    hasBadEscape [0x5C, 0x5C, 0x71, 0x4E2D] = true ∧
      convertHanToASCII [0x5C, 0x5C, 0x71, 0x4E2D] ≠ [0x5C, 0x5C, 0x71, 0x4E2D] := by
  constructor
  · decide
  · decide

/-- C5 amended: if some backslash that is not itself consumed as the
escaped character of a preceding escape sequence is immediately followed
by a byte outside the recognized escape set — that is, the left-to-right
scan aborts — then the normalizer returns the input unchanged in full,
even when the input also contains CJK runes elsewhere. -/
theorem normalizer_unescaped_bad_escape_identity (s : GoStr)
    (h : scanAborts false s = true) : convertHanToASCII s = s := by
  have hnone : convertHanAux false s = none := (scanAborts_iff_aux_none s false).mp h
  unfold convertHanToASCII
  rw [hnone]

theorem normalizer_unescaped_bad_escape_identity_witness :
    scanAborts false [0x5C, 0x71, 0x4E2D] = true ∧
      convertHanToASCII [0x5C, 0x71, 0x4E2D] = [0x5C, 0x71, 0x4E2D] :=
  ⟨by decide, normalizer_unescaped_bad_escape_identity [0x5C, 0x71, 0x4E2D] (by decide)⟩

/-! ## Data model: schema, plan protos, compiled outcomes -/

/-- The `schemapb.DataType` values this development needs: the boolean
type required of predicates, a few scalar types, the five vector kinds
mapped by `CreateSearchPlan`, and a further vector kind.  The schema
enum contains vector types beyond the five mapped kinds; the spec treats
a vector type accepted upstream but unknown to the mapping as a
reachable internal-error case. -/
inductive DataType where
  | boolType
  | int64Type
  | varCharType
  | binaryVector
  | floatVector
  | float16Vector
  | bfloat16Vector
  | sparseFloatVector
  | int8Vector
deriving DecidableEq

/-- `planpb.VectorType`: the five vector-kind tags set by the assembler. -/
inductive VectorType where
  | binaryVector
  | floatVector
  | float16Vector
  | bfloat16Vector
  | sparseFloatVector
deriving DecidableEq

/-- `planpb.GenericValue`: the tagged literal values carried by term
expressions and produced by template resolution. -/
inductive GenericValue where
  | int64Val (v : Int)
  | stringVal (s : String)
  | boolVal (b : Bool)
deriving DecidableEq

/-- `planpb.ColumnInfo` as used by `CreateRequeryPlan`. -/
structure ColumnInfo where
  fieldId : Int
  dataType : DataType
  isPrimaryKey : Bool
  isAutoID : Bool
  isPartitionKey : Bool
deriving DecidableEq

/-- The fragment of the `planpb.Expr` plan-expression tree this
development needs: the always-true predicate synthesized on the empty
fast path, literal values, term (membership) expressions, template
placeholder references, and a binary composite giving trees depth. -/
inductive Expr where
  | alwaysTrueExpr : Expr
  | valueExpr (v : GenericValue) : Expr
  | termExpr (columnInfo : ColumnInfo) (values : List GenericValue) : Expr
  | templateExpr (name : String) : Expr
  | binaryExpr (l r : Expr) : Expr
deriving DecidableEq

/-- `ExprWithType`: the typed expression produced by the visitor — a
data-type tag plus the plan-expression payload. -/
structure ExprWithType where
  dataType : DataType
  expr : Expr
deriving DecidableEq

/-- The error values the driver can return, as structured data. -/
inductive GoError where
  | invalidExpr (s : GoStr)
  | cannotParse (s : GoStr) (inner : GoError)
  | cannotParseNilExpr (s : GoStr)
  | notBoolean (s : GoStr) (dt : DataType)
  | templateNotFound (name : String)
  | fieldNotFound (name : String)
  | fieldNotLoaded (name : String)
  | notVector (name : String)
  | external (tag : Nat)
deriving DecidableEq

/-- The `interface\x7b\x7d` value stored in the result cache: either an
error or a typed expression (`getError` / `getExpr` dispatch on it). -/
inductive Outcome where
  | err (e : GoError)
  | ewt (e : ExprWithType)
deriving DecidableEq

/-- `getError` from the driver's utilities: the error held by an
outcome, if it is one. -/
def getError : Outcome → Option GoError
  | .err e => some e
  | .ewt _ => none

/-- `getExpr` from the driver's utilities: the typed expression held by
an outcome, if it is one. -/
def getExpr : Outcome → Option ExprWithType
  | .err _ => none
  | .ewt e => some e

/-- `schemapb.FieldSchema`: the per-field descriptor consumed by the
assemblers. -/
structure FieldSchema where
  fieldID : Int
  name : String
  dataType : DataType
  isPrimaryKey : Bool
  autoID : Bool
  isPartitionKey : Bool
deriving DecidableEq

/-- Modelled from the spec: the schema helper collaborator — collection
name, field descriptors, and the set of loaded (resident) field ids. -/
structure SchemaHelper where
  collectionName : String
  fields : List FieldSchema
  loadedFieldIDs : List Int

/-- Modelled from the spec: field lookup by name on the schema helper;
fails when the field is absent. -/
def GetFieldFromName (schema : SchemaHelper) (name : String) : Except GoError FieldSchema :=
  match schema.fields.find? (fun f => f.name == name) with
  | some f => .ok f
  | none => .error (.fieldNotFound name)

/-- Modelled from the spec: the residency predicate on a field id. -/
def IsFieldLoaded (schema : SchemaHelper) (fieldID : Int) : Bool :=
  schema.loadedFieldIDs.contains fieldID

/-- Modelled from the spec: the emptiness test guarding the
empty-expression fast path. -/
def isEmptyExpression (s : GoStr) : Bool :=
  s.isEmpty

/-- Modelled from the spec: the boolean-always-true expression
synthesized on the empty fast path. -/
def alwaysTrueExpr : Expr :=
  Expr.alwaysTrueExpr

/-! ## The grammar collaborator and the mutable process state -/

/-- Modelled from the spec: the deterministic external grammar
collaborator, as observed through the error sink and the visitor.  Each
stage is a function of the normalized expression string (the visitor
additionally of the collection name standing in for the schema, per the
cache-key assumption documented in the source). -/
structure Env where
  lexErr : GoStr → Option GoError
  parserCtorErr : GoStr → Option GoError
  parseErr : GoStr → Option GoError
  atEOF : GoStr → Bool
  visit : String → GoStr → Outcome

/-- `exprParseKey`: the result-cache key. -/
structure ExprParseKey where
  collectionName : String
  expr : GoStr
deriving DecidableEq

/-- The process-wide mutable state threaded through the driver: the
result cache (the expirable LRU, modelled without the eviction and TTL
that cannot fire between the sequential calls the claims discuss) and
event counters observing the lexer/parser pool and the grammar
collaborator. -/
structure St where
  cache : List (ExprParseKey × Outcome)
  lexersAcquired : Nat
  lexersReturned : Nat
  parsersAcquired : Nat
  parsersReturned : Nat
  grammarCalls : Nat
deriving DecidableEq

def initSt : St :=
  ⟨[], 0, 0, 0, 0, 0⟩

/-- Cache lookup (`exprCache.Get`). -/
def cacheGet : List (ExprParseKey × Outcome) → ExprParseKey → Option Outcome
  | [], _ => none
  | (k, v) :: rest, key => if k = key then some v else cacheGet rest key

/-- Cache insertion (`exprCache.Add`); a fresh entry is the most recent
one. -/
def cacheAdd (c : List (ExprParseKey × Outcome)) (k : ExprParseKey) (v : Outcome) :
    List (ExprParseKey × Outcome) :=
  (k, v) :: c

/-- In-place mutation of the one entry stored under a key: the cached
outcome and the expression later handed to callers are the same Go
object, so writing through the pointer rewrites the cached tree. -/
def cacheUpdate : List (ExprParseKey × Outcome) → ExprParseKey → Outcome →
    List (ExprParseKey × Outcome)
  | [], _, _ => []
  | (k, v) :: rest, key, nv =>
      if k = key then (key, nv) :: rest else (k, v) :: cacheUpdate rest key nv

/-! ## Compile pipeline -/

/-- `handleExprWithErrorListener` from the source: the empty fast path,
then lexer construction, parser construction, the expression rule, the
full-consumption check — each short-circuiting on the error sink — then
the return of both pooled instances, then the schema-aware visit. -/
def handleExprWithErrorListener (env : Env) (coll : String) (exprStr : GoStr) (st : St) :
    Outcome × St :=
  if isEmptyExpression exprStr then
    (.ewt ⟨DataType.boolType, alwaysTrueExpr⟩, st)
  else
    let st1 := { st with grammarCalls := st.grammarCalls + 1,
                         lexersAcquired := st.lexersAcquired + 1 }
    match env.lexErr exprStr with
    | some e => (.err e, st1)
    | none =>
        let st2 := { st1 with parsersAcquired := st1.parsersAcquired + 1 }
        match env.parserCtorErr exprStr with
        | some e => (.err e, st2)
        | none =>
            match env.parseErr exprStr with
            | some e => (.err e, st2)
            | none =>
                if env.atEOF exprStr then
                  let st3 := { st2 with lexersReturned := st2.lexersReturned + 1,
                                        parsersReturned := st2.parsersReturned + 1 }
                  (env.visit coll exprStr, st3)
                else (.err (.invalidExpr exprStr), st2)

/-- The outcome of the pipeline is a pure function of the collaborator,
the collection and the normalized string; the state only records pool
and invocation bookkeeping. -/
def compileOutcome (env : Env) (coll : String) (exprStr : GoStr) : Outcome :=
  if isEmptyExpression exprStr then .ewt ⟨DataType.boolType, alwaysTrueExpr⟩
  else
    match env.lexErr exprStr with
    | some e => .err e
    | none =>
        match env.parserCtorErr exprStr with
        | some e => .err e
        | none =>
            match env.parseErr exprStr with
            | some e => .err e
            | none =>
                if env.atEOF exprStr then env.visit coll exprStr
                else .err (.invalidExpr exprStr)

theorem handleExprWithErrorListener_fst (env : Env) (coll : String) (exprStr : GoStr)
    (st : St) :
    (handleExprWithErrorListener env coll exprStr st).1 = compileOutcome env coll exprStr := by
  unfold handleExprWithErrorListener compileOutcome
  by_cases hemp : isEmptyExpression exprStr = true
  · rw [if_pos hemp, if_pos hemp]
  · rw [if_neg hemp, if_neg hemp]
    cases env.lexErr exprStr <;>
      cases env.parserCtorErr exprStr <;>
        cases env.parseErr exprStr <;>
          by_cases heof : env.atEOF exprStr = true <;>
            simp [heof]

/-- `handleExpr` from the source: probe the cache under the raw key; on
a miss, normalize, run the pipeline, and store the outcome — errors
included — under the key. -/
def handleExpr (env : Env) (schema : SchemaHelper) (exprStr : GoStr) (st : St) :
    Outcome × St :=
  let key : ExprParseKey := ⟨schema.collectionName, exprStr⟩
  match cacheGet st.cache key with
  | some v => (v, st)
  | none =>
      let norm := convertHanToASCII exprStr
      let res := handleExprWithErrorListener env schema.collectionName norm st
      (res.1, { res.2 with cache := cacheAdd res.2.cache key res.1 })

/-! ## Template value resolution (spec-modelled collaborator) -/

/-- Modelled from the spec: `UnmarshalExpressionValues` converts the
caller-supplied map into the internal lookup representation.  The
internal-consistency validation of malformed array values is not
exercised by any claim and is not modelled; conversion succeeds. -/
def UnmarshalExpressionValues (m : List (String × GenericValue)) :
    Except GoError (List (String × GenericValue)) :=
  .ok m

/-- Placeholder lookup in the resolved value map. -/
def lookupVal : List (String × GenericValue) → String → Option GenericValue
  | [], _ => none
  | (k, v) :: rest, name => if k = name then some v else lookupVal rest name

/-- Modelled from the spec: `FillExpressionValue` walks the compiled
plan-expression tree and replaces every template-placeholder reference
with the resolved literal value, failing when a referenced placeholder
is absent from the supplied map.  In Go the replacement writes through
the tree in place; here the rewritten tree is returned and the caller
accounts for the sharing with the cache. -/
def FillExpressionValue : Expr → List (String × GenericValue) → Except GoError Expr
  | .alwaysTrueExpr, _ => .ok .alwaysTrueExpr
  | .valueExpr v, _ => .ok (.valueExpr v)
  | .termExpr ci vs, _ => .ok (.termExpr ci vs)
  | .templateExpr name, m =>
      match lookupVal m name with
      | some v => .ok (.valueExpr v)
      | none => .error (.templateNotFound name)
  | .binaryExpr l r, m =>
      match FillExpressionValue l m, FillExpressionValue r m with
      | .ok l2, .ok r2 => .ok (.binaryExpr l2 r2)
      | .error e, _ => .error e
      | .ok _, .error e => .error e

/-- A plan-expression tree without template-placeholder references. -/
def templateFree : Expr → Bool
  | .alwaysTrueExpr => true
  | .valueExpr _ => true
  | .termExpr _ _ => true
  | .templateExpr _ => false
  | .binaryExpr l r => templateFree l && templateFree r

theorem fill_of_templateFree (e : Expr) (m : List (String × GenericValue))
    (h : templateFree e = true) : FillExpressionValue e m = .ok e := by
  induction e with
  | alwaysTrueExpr => rfl
  | valueExpr v => rfl
  | termExpr ci vs => rfl
  | templateExpr name => simp [templateFree] at h
  | binaryExpr l r ihl ihr =>
      simp only [templateFree, Bool.and_eq_true] at h
      simp [FillExpressionValue, ihl h.1, ihr h.2]

theorem fill_templateFree (e : Expr) (m : List (String × GenericValue)) (e2 : Expr)
    (h : FillExpressionValue e m = .ok e2) : templateFree e2 = true := by
  induction e generalizing e2 with
  | alwaysTrueExpr =>
      simp only [FillExpressionValue, Except.ok.injEq] at h
      rw [← h]; rfl
  | valueExpr v =>
      simp only [FillExpressionValue, Except.ok.injEq] at h
      rw [← h]; rfl
  | termExpr ci vs =>
      simp only [FillExpressionValue, Except.ok.injEq] at h
      rw [← h]; rfl
  | templateExpr name =>
      simp only [FillExpressionValue] at h
      cases hl : lookupVal m name with
      | none => rw [hl] at h; exact absurd h (by simp)
      | some v =>
          rw [hl] at h
          simp only [Except.ok.injEq] at h
          rw [← h]; rfl
  | binaryExpr l r ihl ihr =>
      simp only [FillExpressionValue] at h
      cases hfl : FillExpressionValue l m with
      | error e => rw [hfl] at h; exact absurd h (by simp)
      | ok l2 =>
          cases hfr : FillExpressionValue r m with
          | error e => rw [hfl, hfr] at h; exact absurd h (by simp)
          | ok r2 =>
              rw [hfl, hfr] at h
              simp only [Except.ok.injEq] at h
              rw [← h]
              simp [templateFree, ihl l2 hfl, ihr r2 hfr]

theorem fill_idempotent (e : Expr) (m : List (String × GenericValue)) (e2 : Expr)
    (h : FillExpressionValue e m = .ok e2) : FillExpressionValue e2 m = .ok e2 :=
  fill_of_templateFree e2 m (fill_templateFree e m e2 h)

/-! ## Compile (`ParseExpr`) -/

/-- `canBeExecuted` from the driver's utilities, modelled from the spec:
only a boolean-typed expression may serve as a plan predicate. -/
def canBeExecuted (e : ExprWithType) : Bool :=
  e.dataType = DataType.boolType

/-- `ParseExpr` from the source: compile (through cache and pipeline),
reject error outcomes and non-boolean predicates, resolve the supplied
template values, and fill the placeholders in the compiled tree.  The
fill writes through the tree shared with the result cache, so on a
successful fill the entry stored under the key now holds the filled
tree. -/
def ParseExpr (env : Env) (schema : SchemaHelper) (exprStr : GoStr)
    (tmpl : List (String × GenericValue)) (st : St) : Except GoError Expr × St :=
  let key : ExprParseKey := ⟨schema.collectionName, exprStr⟩
  let res := handleExpr env schema exprStr st
  match res.1 with
  | .err e => (.error (.cannotParse exprStr e), res.2)
  | .ewt predicate =>
      if canBeExecuted predicate then
        match UnmarshalExpressionValues tmpl with
        | .error e => (.error e, res.2)
        | .ok valueMap =>
            match FillExpressionValue predicate.expr valueMap with
            | .error e => (.error e, res.2)
            | .ok filled =>
                (.ok filled,
                  { res.2 with
                    cache := cacheUpdate res.2.cache key (.ewt ⟨predicate.dataType, filled⟩) })
      else (.error (.notBoolean exprStr predicate.dataType), res.2)

/-! ## Cache lemmas -/

theorem cacheGet_add (c : List (ExprParseKey × Outcome)) (k : ExprParseKey) (v : Outcome) :
    cacheGet (cacheAdd c k v) k = some v := by
  simp [cacheAdd, cacheGet]

theorem cacheGet_update (c : List (ExprParseKey × Outcome)) (k : ExprParseKey)
    (v w : Outcome) (h : cacheGet c k = some w) :
    cacheGet (cacheUpdate c k v) k = some v := by
  induction c with
  | nil => simp [cacheGet] at h
  | cons kv rest ih =>
      obtain ⟨k1, v1⟩ := kv
      by_cases hk : k1 = k
      · simp [cacheGet, cacheUpdate, hk]
      · simp only [cacheGet, cacheUpdate, if_neg hk] at h ⊢
        exact ih h

theorem cacheUpdate_self (c : List (ExprParseKey × Outcome)) (k : ExprParseKey)
    (v : Outcome) (h : cacheGet c k = some v) : cacheUpdate c k v = c := by
  induction c with
  | nil => simp [cacheGet] at h
  | cons kv rest ih =>
      obtain ⟨k1, v1⟩ := kv
      by_cases hk : k1 = k
      · simp only [cacheGet, if_pos hk, Option.some.injEq] at h
        simp [cacheUpdate, hk, h]
      · simp only [cacheGet, if_neg hk] at h
        simp [cacheUpdate, hk, ih h]

/-! ## Outcome-level characterization of `ParseExpr` -/

/-- The value `ParseExpr` returns once the compiled outcome under the
key is known. -/
def parseResult (exprStr : GoStr) (tmpl : List (String × GenericValue)) :
    Outcome → Except GoError Expr
  | .err e => .error (.cannotParse exprStr e)
  | .ewt p =>
      if canBeExecuted p then
        match UnmarshalExpressionValues tmpl with
        | .error e => .error e
        | .ok valueMap =>
            match FillExpressionValue p.expr valueMap with
            | .error e => .error e
            | .ok filled => .ok filled
      else .error (.notBoolean exprStr p.dataType)

/-- The outcome stored under the key after `ParseExpr` ran against it:
unchanged except that a successful template fill rewrote the shared
tree in place. -/
def postOutcome (tmpl : List (String × GenericValue)) : Outcome → Outcome
  | .err e => .err e
  | .ewt p =>
      if canBeExecuted p then
        match UnmarshalExpressionValues tmpl with
        | .error _ => .ewt p
        | .ok valueMap =>
            match FillExpressionValue p.expr valueMap with
            | .error _ => .ewt p
            | .ok filled => .ewt ⟨p.dataType, filled⟩
      else .ewt p

theorem handleExpr_hit (env : Env) (schema : SchemaHelper) (e : GoStr) (st : St)
    (v : Outcome) (h : cacheGet st.cache ⟨schema.collectionName, e⟩ = some v) :
    handleExpr env schema e st = (v, st) := by
  unfold handleExpr
  simp [h]

theorem handleExpr_miss (env : Env) (schema : SchemaHelper) (e : GoStr) (st : St)
    (h : cacheGet st.cache ⟨schema.collectionName, e⟩ = none) :
    handleExpr env schema e st =
      (compileOutcome env schema.collectionName (convertHanToASCII e),
        { (handleExprWithErrorListener env schema.collectionName (convertHanToASCII e) st).2 with
          cache := cacheAdd
            (handleExprWithErrorListener env schema.collectionName (convertHanToASCII e) st).2.cache
            ⟨schema.collectionName, e⟩
            (compileOutcome env schema.collectionName (convertHanToASCII e)) }) := by
  unfold handleExpr
  simp [h, handleExprWithErrorListener_fst]

theorem parseExpr_of_hit (env : Env) (schema : SchemaHelper) (e : GoStr)
    (tmpl : List (String × GenericValue)) (st : St) (v : Outcome)
    (h : cacheGet st.cache ⟨schema.collectionName, e⟩ = some v) :
    (ParseExpr env schema e tmpl st).1 = parseResult e tmpl v ∧
      cacheGet (ParseExpr env schema e tmpl st).2.cache ⟨schema.collectionName, e⟩ =
        some (postOutcome tmpl v) ∧
      (ParseExpr env schema e tmpl st).2.grammarCalls = st.grammarCalls := by
  unfold ParseExpr
  rw [handleExpr_hit env schema e st v h]
  cases v with
  | err er => simp [parseResult, postOutcome, h]
  | ewt p =>
      by_cases hb : canBeExecuted p = true
      · simp only [hb, if_true, UnmarshalExpressionValues]
        cases hf : FillExpressionValue p.expr tmpl with
        | error er =>
            simp [parseResult, postOutcome, hb, hf, h, UnmarshalExpressionValues]
        | ok filled =>
            simp [parseResult, postOutcome, hb, hf, UnmarshalExpressionValues,
              cacheGet_update _ _ _ _ h]
      · simp [parseResult, postOutcome, hb, h]

theorem parseExpr_of_miss (env : Env) (schema : SchemaHelper) (e : GoStr)
    (tmpl : List (String × GenericValue)) (st : St)
    (h : cacheGet st.cache ⟨schema.collectionName, e⟩ = none) :
    (ParseExpr env schema e tmpl st).1 =
        parseResult e tmpl (compileOutcome env schema.collectionName (convertHanToASCII e)) ∧
      cacheGet (ParseExpr env schema e tmpl st).2.cache ⟨schema.collectionName, e⟩ =
        some (postOutcome tmpl (compileOutcome env schema.collectionName (convertHanToASCII e))) := by
  unfold ParseExpr
  rw [handleExpr_miss env schema e st h]
  cases hv : compileOutcome env schema.collectionName (convertHanToASCII e) with
  | err er => simp [parseResult, postOutcome, cacheGet_add]
  | ewt p =>
      by_cases hb : canBeExecuted p = true
      · simp only [hb, if_true, UnmarshalExpressionValues]
        cases hf : FillExpressionValue p.expr tmpl with
        | error er =>
            simp [parseResult, postOutcome, hb, hf, UnmarshalExpressionValues, cacheGet_add]
        | ok filled =>
            simp [parseResult, postOutcome, hb, hf, UnmarshalExpressionValues,
              cacheGet_update _ _ _ _ (cacheGet_add _ _ _)]
      · simp [parseResult, postOutcome, hb, cacheGet_add]

theorem postOutcome_stable (e : GoStr) (tmpl : List (String × GenericValue)) (v : Outcome) :
    parseResult e tmpl (postOutcome tmpl v) = parseResult e tmpl v ∧
      postOutcome tmpl (postOutcome tmpl v) = postOutcome tmpl v := by
  cases v with
  | err er => exact ⟨rfl, rfl⟩
  | ewt p =>
      by_cases hb : canBeExecuted p = true
      · simp only [postOutcome, hb, if_true, UnmarshalExpressionValues]
        cases hf : FillExpressionValue p.expr tmpl with
        | error er => simp [parseResult, postOutcome, hb, hf, UnmarshalExpressionValues]
        | ok filled =>
            have hb2 : canBeExecuted ⟨p.dataType, filled⟩ = true := hb
            have hf2 : FillExpressionValue filled tmpl = .ok filled :=
              fill_idempotent p.expr tmpl filled hf
            simp [parseResult, postOutcome, hb, hb2, hf, hf2, UnmarshalExpressionValues]
      · simp [parseResult, postOutcome, hb]

theorem parseExpr_grammarCalls (env : Env) (schema : SchemaHelper) (e : GoStr)
    (tmpl : List (String × GenericValue)) (st : St) :
    (ParseExpr env schema e tmpl st).2.grammarCalls =
      (handleExpr env schema e st).2.grammarCalls := by
  unfold ParseExpr
  rcases hres : handleExpr env schema e st with ⟨v, st1⟩
  cases v with
  | err er => rfl
  | ewt p =>
      by_cases hb : canBeExecuted p = true
      · simp only [hb, if_true, UnmarshalExpressionValues]
        cases hf : FillExpressionValue p.expr tmpl <;> simp [hf]
      · simp [hb]

/-- C4: for a fixed (schema, expression, template values) argument
vector, two sequential Compile calls yield identical outcome values —
errors included, which were stored under the same key and are returned
verbatim — and the second call does not invoke the grammar
collaborator. -/
theorem compile_sequential_identical (env : Env) (schema : SchemaHelper) (e : GoStr)
    (tmpl : List (String × GenericValue)) (st : St) :
    (ParseExpr env schema e tmpl ((ParseExpr env schema e tmpl st).2)).1 =
        (ParseExpr env schema e tmpl st).1 ∧
      (ParseExpr env schema e tmpl ((ParseExpr env schema e tmpl st).2)).2.grammarCalls =
        (ParseExpr env schema e tmpl st).2.grammarCalls := by
  cases h : cacheGet st.cache ⟨schema.collectionName, e⟩ with
  | some v =>
      obtain ⟨h1, h2, _⟩ := parseExpr_of_hit env schema e tmpl st v h
      obtain ⟨g1, _, g3⟩ :=
        parseExpr_of_hit env schema e tmpl ((ParseExpr env schema e tmpl st).2)
          (postOutcome tmpl v) h2
      exact ⟨by rw [g1, h1, (postOutcome_stable e tmpl v).1], g3⟩
  | none =>
      obtain ⟨h1, h2⟩ := parseExpr_of_miss env schema e tmpl st h
      obtain ⟨g1, _, g3⟩ :=
        parseExpr_of_hit env schema e tmpl ((ParseExpr env schema e tmpl st).2)
          (postOutcome tmpl (compileOutcome env schema.collectionName (convertHanToASCII e))) h2
      exact ⟨by
        rw [g1, h1,
          (postOutcome_stable e tmpl
            (compileOutcome env schema.collectionName (convertHanToASCII e))).1], g3⟩

/-! ## Concrete fixtures for witnesses and counterexamples -/

/-- A grammar collaborator whose stages all succeed and whose visitor
reports a (semantic) error. -/
def envVisitErr : Env :=
  ⟨fun _ => none, fun _ => none, fun _ => none, fun _ => true,
    fun _ _ => .err (.external 0)⟩

/-- A grammar collaborator whose visitor yields a boolean predicate
containing the template placeholder named t. -/
def envTpl : Env :=
  ⟨fun _ => none, fun _ => none, fun _ => none, fun _ => true,
    fun _ _ => .ewt ⟨DataType.boolType, .templateExpr "t"⟩⟩

/-- A grammar collaborator that fails the full-consumption check. -/
def envNoEOF : Env :=
  ⟨fun _ => none, fun _ => none, fun _ => none, fun _ => false,
    fun _ _ => .err (.external 0)⟩

/-- A schema handle with no fields, for claims that never resolve one. -/
def schemaC : SchemaHelper :=
  ⟨"c", [], []⟩

/-- A state whose cache already holds a placeholder-free boolean outcome
for the key (c, a). -/
def stPre : St :=
  ⟨[(⟨"c", [0x61]⟩, .ewt ⟨DataType.boolType, .alwaysTrueExpr⟩)], 0, 0, 0, 0, 0⟩

/-! ## C6: the empty-expression fast path -/

/-- A cache state reachable through the driver: every stored outcome is
either the pipeline's outcome for its key or that outcome after some
template fill wrote through it. -/
def CacheWF (env : Env) (st : St) : Prop :=
  ∀ k v, cacheGet st.cache k = some v →
    v = compileOutcome env k.collectionName (convertHanToASCII k.expr) ∨
      ∃ m, v = postOutcome m (compileOutcome env k.collectionName (convertHanToASCII k.expr))

theorem postOutcome_alwaysTrue (m : List (String × GenericValue)) :
    postOutcome m (.ewt ⟨DataType.boolType, Expr.alwaysTrueExpr⟩) =
      .ewt ⟨DataType.boolType, Expr.alwaysTrueExpr⟩ :=
  rfl

/-- C6: on any reachable state, compiling the empty expression string
with an empty template-value map succeeds with the boolean-typed
always-true predicate, and the grammar collaborator is never invoked on
this path. -/
theorem compile_empty_always_true (env : Env) (schema : SchemaHelper) (st : St)
    (hwf : CacheWF env st) :
    (handleExpr env schema [] st).1 = .ewt ⟨DataType.boolType, Expr.alwaysTrueExpr⟩ ∧
      (ParseExpr env schema [] [] st).1 = .ok Expr.alwaysTrueExpr ∧
      (ParseExpr env schema [] [] st).2.grammarCalls = st.grammarCalls := by
  have hco : compileOutcome env schema.collectionName (convertHanToASCII []) =
      .ewt ⟨DataType.boolType, Expr.alwaysTrueExpr⟩ := rfl
  cases h : cacheGet st.cache ⟨schema.collectionName, []⟩ with
  | some v =>
      have hv : v = .ewt ⟨DataType.boolType, Expr.alwaysTrueExpr⟩ := by
        rcases hwf ⟨schema.collectionName, []⟩ v h with h1 | ⟨m, h2⟩
        · rw [h1]; exact hco
        · rw [h2, hco, postOutcome_alwaysTrue]
      rw [hv] at h
      obtain ⟨p1, _, p3⟩ :=
        parseExpr_of_hit env schema [] [] st (.ewt ⟨DataType.boolType, Expr.alwaysTrueExpr⟩) h
      refine ⟨?_, ?_, p3⟩
      · rw [handleExpr_hit env schema [] st _ h]
      · rw [p1]; rfl
  | none =>
      obtain ⟨p1, _⟩ := parseExpr_of_miss env schema [] [] st h
      refine ⟨?_, ?_, ?_⟩
      · rw [handleExpr_miss env schema [] st h, hco]
      · rw [p1, hco]; rfl
      · rw [parseExpr_grammarCalls, handleExpr_miss env schema [] st h]
        rfl

theorem compile_empty_always_true_witness :
    (handleExpr envVisitErr schemaC [] initSt).1 =
        .ewt ⟨DataType.boolType, Expr.alwaysTrueExpr⟩ ∧
      (ParseExpr envVisitErr schemaC [] [] initSt).1 = .ok Expr.alwaysTrueExpr ∧
      (ParseExpr envVisitErr schemaC [] [] initSt).2.grammarCalls = initSt.grammarCalls :=
  compile_empty_always_true envVisitErr schemaC initSt
    (fun k v h => by simp [initSt, cacheGet] at h)

/-! ## C1: immutability of cached outcomes -/

/-- C1 counterexample: the visitor produces a boolean predicate holding
a template placeholder; the first Compile stores it and then the
template fill rewrites the shared cached tree in place, so the cache no
longer holds the originally stored expression, and a second Compile —
here with a different template value — observes the first call's filled
tree instead of resolving its own value. -/
theorem cached_plan_mutated_by_template_fill :
    compileOutcome envTpl "c" (convertHanToASCII [0x61]) =
        .ewt ⟨DataType.boolType, .templateExpr "t"⟩ ∧
      cacheGet (ParseExpr envTpl schemaC [0x61] [("t", .int64Val 5)] initSt).2.cache
          ⟨"c", [0x61]⟩ =
        some (.ewt ⟨DataType.boolType, .valueExpr (.int64Val 5)⟩) ∧
      (ParseExpr envTpl schemaC [0x61] [("t", .int64Val 7)]
          (ParseExpr envTpl schemaC [0x61] [("t", .int64Val 5)] initSt).2).1 =
        .ok (.valueExpr (.int64Val 5)) :=
  ⟨rfl, rfl, rfl⟩

/-- An outcome whose plan-expression payload (if any) is free of
template placeholders. -/
def outcomeTemplateFree : Outcome → Bool
  | .err _ => true
  | .ewt p => templateFree p.expr

/-- C1 amended: a cache-hitting Compile leaves the stored entry — and
the whole cache — unchanged provided the stored outcome's
plan-expression tree contains no template placeholders; when it does
contain placeholders, the successful template fill rewrites the shared
cached tree in place and later Compiles under the same key observe the
filled tree, not the originally stored one. -/
theorem cached_entry_preserved_of_template_free (env : Env) (schema : SchemaHelper)
    (e : GoStr) (tmpl : List (String × GenericValue)) (st : St) (v : Outcome)
    (hhit : cacheGet st.cache ⟨schema.collectionName, e⟩ = some v)
    (hfree : outcomeTemplateFree v = true) :
    (ParseExpr env schema e tmpl st).2.cache = st.cache := by
  unfold ParseExpr
  rw [handleExpr_hit env schema e st v hhit]
  cases v with
  | err er => rfl
  | ewt p =>
      have hfr : templateFree p.expr = true := hfree
      by_cases hb : canBeExecuted p = true
      · simp only [hb, if_true, UnmarshalExpressionValues,
          fill_of_templateFree p.expr tmpl hfr]
        exact cacheUpdate_self st.cache _ (.ewt p) hhit
      · simp [hb]

theorem cached_entry_preserved_of_template_free_witness :
    cacheGet stPre.cache ⟨"c", [0x61]⟩ =
        some (.ewt ⟨DataType.boolType, Expr.alwaysTrueExpr⟩) ∧
      (ParseExpr envVisitErr schemaC [0x61] [] stPre).2.cache = stPre.cache :=
  ⟨rfl,
    cached_entry_preserved_of_template_free envVisitErr schemaC [0x61] [] stPre
      (.ewt ⟨DataType.boolType, Expr.alwaysTrueExpr⟩) rfl rfl⟩

/-! ## C2: pool returns and error paths -/

/-- All grammar stages through the full-consumption check succeed. -/
def grammarStagesOK (env : Env) (s : GoStr) : Bool :=
  (env.lexErr s).isNone && (env.parserCtorErr s).isNone && (env.parseErr s).isNone &&
    env.atEOF s

/-- C2 counterexample: an input on which every grammar stage succeeds
but the schema-aware visitor reports an error.  The compile completes
with an error outcome, yet both the lexer and the parser have been
returned to the pool — they are handed back before the visitor runs. -/
theorem pool_returned_despite_visitor_error :
    (handleExprWithErrorListener envVisitErr "c" [0x61] initSt).1 = .err (.external 0) ∧
      (handleExprWithErrorListener envVisitErr "c" [0x61] initSt).2.lexersReturned = 1 ∧
      (handleExprWithErrorListener envVisitErr "c" [0x61] initSt).2.parsersReturned = 1 :=
  ⟨rfl, rfl, rfl⟩

/-- C2 amended: on a non-empty expression the acquired lexer and parser
are returned to the pool exactly when the grammar stages — lexer
construction, parser construction, the expression parse, and the
full-consumption check — all succeed; they are returned before the
visitor runs, so a visitor-stage error does not prevent the return,
while on each of the four grammar-stage error paths nothing is
returned. -/
theorem pool_return_iff_grammar_stages_ok (env : Env) (coll : String) (s : GoStr)
    (st : St) (h : isEmptyExpression s = false) :
    (handleExprWithErrorListener env coll s st).2.lexersReturned =
        st.lexersReturned + (if grammarStagesOK env s then 1 else 0) ∧
      (handleExprWithErrorListener env coll s st).2.parsersReturned =
        st.parsersReturned + (if grammarStagesOK env s then 1 else 0) := by
  unfold handleExprWithErrorListener
  rw [if_neg (by rw [h]; exact Bool.false_ne_true)]
  cases hl : env.lexErr s <;>
    cases hp : env.parserCtorErr s <;>
      cases hq : env.parseErr s <;>
        by_cases heof : env.atEOF s = true <;>
          simp [grammarStagesOK, hl, hp, hq, heof]

theorem pool_return_iff_grammar_stages_ok_witness :
    (handleExprWithErrorListener envNoEOF "c" [0x61] initSt).2.lexersReturned =
        initSt.lexersReturned + (if grammarStagesOK envNoEOF [0x61] then 1 else 0) ∧
      (handleExprWithErrorListener envNoEOF "c" [0x61] initSt).2.parsersReturned =
        initSt.parsersReturned + (if grammarStagesOK envNoEOF [0x61] then 1 else 0) :=
  pool_return_iff_grammar_stages_ok envNoEOF "c" [0x61] initSt rfl

/-! ## Plan assemblers -/

/-- `planpb.QueryInfo`: the caller-supplied query parameters, passed
through uninterpreted. -/
structure QueryInfo where
  topk : Int
  metricType : String
  searchParams : String
deriving DecidableEq

/-- The two `planpb.PlanNode` shapes the drivers build: a Query node
(predicate, count flag, row limit) and a VectorAnns node. -/
inductive PlanNode where
  | query (predicates : Option Expr) (isCount : Bool) (limit : Int)
  | vectorAnns (vectorType : VectorType) (predicates : Option Expr)
      (queryInfo : QueryInfo) (placeholderTag : String) (fieldId : Int)
deriving DecidableEq

/-- `CreateRetrievePlan` from the source: compile the predicate and wrap
it into a Query node with proto-default count flag and limit. -/
def CreateRetrievePlan (env : Env) (schema : SchemaHelper) (exprStr : GoStr)
    (tmpl : List (String × GenericValue)) (st : St) :
    (Option PlanNode × Option GoError) × St :=
  match ParseExpr env schema exprStr tmpl st with
  | (.error e, st1) => ((none, some e), st1)
  | (.ok e, st1) => ((some (.query (some e) false 0), none), st1)

/-- The five-case switch of `CreateSearchPlan` mapping a vector data
type to its vector-kind tag; every other data type falls to the
default branch. -/
def vectorTypeMap : DataType → Option VectorType
  | .binaryVector => some .binaryVector
  | .floatVector => some .floatVector
  | .float16Vector => some .float16Vector
  | .bfloat16Vector => some .bfloat16Vector
  | .sparseFloatVector => some .sparseFloatVector
  | _ => none

/-- `CreateSearchPlan` from the source.  `isVectorType` is the external
`typeutil.IsVectorType` predicate, a parameter of the model.  In the
default branch of the switch the Go code executes `return nil, err`
where `err` is necessarily nil (every earlier assignment to it was
checked and returned on), so the model returns neither a plan nor an
error there. -/
def CreateSearchPlan (env : Env) (isVectorType : DataType → Bool) (schema : SchemaHelper)
    (exprStr : GoStr) (vectorFieldName : String) (queryInfo : QueryInfo)
    (tmpl : List (String × GenericValue)) (st : St) :
    (Option PlanNode × Option GoError) × St :=
  let parsed : (Option Expr × Option GoError) × St :=
    if exprStr.length = 0 then ((none, none), st)
    else
      match ParseExpr env schema exprStr tmpl st with
      | (.ok e, st1) => ((some e, none), st1)
      | (.error err, st1) => ((none, some err), st1)
  match parsed.1.2 with
  | some e => ((none, some e), parsed.2)
  | none =>
      match GetFieldFromName schema vectorFieldName with
      | .error e => ((none, some e), parsed.2)
      | .ok vectorField =>
          if IsFieldLoaded schema vectorField.fieldID then
            if isVectorType vectorField.dataType then
              match vectorTypeMap vectorField.dataType with
              | some vt =>
                  ((some (.vectorAnns vt parsed.1.1 queryInfo "$0" vectorField.fieldID),
                    none), parsed.2)
              | none => ((none, none), parsed.2)
            else ((none, some (.notVector vectorFieldName)), parsed.2)
          else ((none, some (.fieldNotLoaded vectorFieldName)), parsed.2)

/-- `schemapb.IDs`: the oneof holding either an integer or a string id
list. -/
inductive IdField where
  | intId (data : List Int)
  | strId (data : List String)
deriving DecidableEq

structure IDs where
  idField : Option IdField
deriving DecidableEq

/-- `CreateRequeryPlan` from the source: one generic value per id,
wrapped in a term expression over the primary-key column inside a Query
node with is-count false and the value count as limit. -/
def CreateRequeryPlan (pkField : FieldSchema) (ids : IDs) : PlanNode :=
  let values : List GenericValue :=
    match ids.idField with
    | some (.intId data) => data.map (fun id => .int64Val id)
    | some (.strId data) => data.map (fun id => .stringVal id)
    | none => []
  .query
    (some (.termExpr
      ⟨pkField.fieldID, pkField.dataType, true, pkField.autoID, pkField.isPartitionKey⟩
      values))
    false (Int.ofNat values.length)

/-! ## C3: unmapped vector type reaching the assembler -/

/-- A vector-type predicate accepting the five mapped kinds and the
further vector kind the switch does not map. -/
def isVectorTypeWide : DataType → Bool
  | .binaryVector => true
  | .floatVector => true
  | .float16Vector => true
  | .bfloat16Vector => true
  | .sparseFloatVector => true
  | .int8Vector => true
  | _ => false

/-- A schema holding one loaded vector field of the unmapped kind. -/
def schemaInt8 : SchemaHelper :=
  ⟨"c3", [⟨101, "v", .int8Vector, false, false, false⟩], [101]⟩

/-- C3: when the named field passes the vector-type predicate but its
data type is not one of the five mapped kinds, `CreateSearchPlan`
returns neither a plan nor an error — the default branch executes
`return nil, err` with `err` still nil — instead of the internal error
the spec prescribes. -/
theorem search_plan_unmapped_vector_returns_nil_nil :
    isVectorTypeWide .int8Vector = true ∧
      vectorTypeMap .int8Vector = none ∧
      (CreateSearchPlan envVisitErr isVectorTypeWide schemaInt8 [] "v"
          ⟨10, "L2", ""⟩ [] initSt).1 = (none, none) :=
  ⟨rfl, rfl, rfl⟩

/-! ## C7: vector-kind mapping and VectorAnns assembly -/

/-- A schema holding one loaded float-vector field, and one of the
unmapped vector kind. -/
def schemaVec : SchemaHelper :=
  ⟨"col7", [⟨5, "vec", .floatVector, false, false, false⟩,
    ⟨7, "vec8", .int8Vector, false, false, false⟩], [5, 7]⟩

/-- C7 counterexample: the resolved field's data type (the further
vector kind) is not one of the five recognized vector data types, yet
`CreateSearchPlan` does not fail with an error: it returns no plan and
no error. -/
theorem search_plan_not_five_kinds_without_error :
    vectorTypeMap .int8Vector = none ∧
      (CreateSearchPlan envVisitErr isVectorTypeWide schemaVec [] "vec8"
          ⟨3, "IP", ""⟩ [] initSt).1 = (none, none) :=
  ⟨rfl, rfl⟩

/-- C7 amended: with the named field resolved and loaded,
`CreateSearchPlan` fails with an error when the field's data type is
rejected by the vector-type predicate; for each of the five recognized
vector kinds it succeeds and assembles a VectorAnns node carrying the
corresponding vector-kind tag, the field id, the caller-supplied query
parameters unmodified, the fixed placeholder tag, and the predicate —
absent when the expression string is empty, present when a non-empty
expression compiles; when the predicate accepts a data type outside the
five mapped kinds, the call returns no plan and no error. -/
theorem search_plan_characterization (env : Env) (isVec : DataType → Bool)
    (schema : SchemaHelper) (vname : String) (qi : QueryInfo)
    (tmpl : List (String × GenericValue)) (st : St) (f : FieldSchema)
    (hf : GetFieldFromName schema vname = .ok f)
    (hl : IsFieldLoaded schema f.fieldID = true) :
    ((CreateSearchPlan env isVec schema [] vname qi tmpl st).1 =
        if isVec f.dataType then
          match vectorTypeMap f.dataType with
          | some vt => (some (.vectorAnns vt none qi "$0" f.fieldID), none)
          | none => (none, none)
        else (none, some (.notVector vname))) ∧
      ∀ (exprStr : GoStr) (e : Expr) (st1 : St), exprStr ≠ [] →
        ParseExpr env schema exprStr tmpl st = (.ok e, st1) →
        (CreateSearchPlan env isVec schema exprStr vname qi tmpl st).1 =
          if isVec f.dataType then
            match vectorTypeMap f.dataType with
            | some vt => (some (.vectorAnns vt (some e) qi "$0" f.fieldID), none)
            | none => (none, none)
          else (none, some (.notVector vname)) := by
  constructor
  · unfold CreateSearchPlan
    simp only [List.length_nil, if_pos rfl, hf, hl, if_true]
    by_cases hv : isVec f.dataType = true
    · rw [if_pos hv, if_pos hv]
      cases vectorTypeMap f.dataType <;> rfl
    · rw [if_neg hv, if_neg hv]
  · intro exprStr e st1 hne hp
    unfold CreateSearchPlan
    rw [if_neg (by simpa [List.length_eq_zero] using hne), hp]
    simp only [hf, hl, if_true]
    by_cases hv : isVec f.dataType = true
    · rw [if_pos hv, if_pos hv]
      cases vectorTypeMap f.dataType <;> rfl
    · rw [if_neg hv, if_neg hv]

theorem search_plan_characterization_witness :
    (CreateSearchPlan envVisitErr isVectorTypeWide schemaVec [] "vec"
        ⟨3, "IP", ""⟩ [] initSt).1 =
      (some (.vectorAnns .floatVector none ⟨3, "IP", ""⟩ "$0" 5), none) :=
  ((search_plan_characterization envVisitErr isVectorTypeWide schemaVec "vec"
      ⟨3, "IP", ""⟩ [] initSt ⟨5, "vec", .floatVector, false, false, false⟩
      rfl rfl).1).trans (by rfl)

/-! ## C8 and C10: the requery plan -/

/-- The row limit carried by a plan node. -/
def planLimit : PlanNode → Int
  | .query _ _ limit => limit
  | .vectorAnns _ _ _ _ _ => 0

/-- The count-only flag carried by a plan node. -/
def planIsCount : PlanNode → Bool
  | .query _ c _ => c
  | .vectorAnns _ _ _ _ _ => false

/-- The column info of the term predicate inside a Query node. -/
def planColumnInfo : PlanNode → Option ColumnInfo
  | .query (some (.termExpr ci _)) _ _ => some ci
  | _ => none

/-- The number of ids supplied in whichever oneof variant is populated. -/
def idCount : IDs → Nat
  | ⟨some (.intId d)⟩ => d.length
  | ⟨some (.strId d)⟩ => d.length
  | ⟨none⟩ => 0

/-- C8: on the id list [1, 2, 3] the requery plan is a Query node whose
term predicate carries Int64 values 1, 2, 3 in order with limit 3 and
is-count false; in general the limit equals the number of supplied ids
and is-count is false (the operation is total, so it never errors), and
with neither id variant present the value list is empty and the limit
zero. -/
theorem requery_plan_contents :
    (∀ pkField : FieldSchema,
        CreateRequeryPlan pkField ⟨some (.intId [1, 2, 3])⟩ =
          .query
            (some (.termExpr
              ⟨pkField.fieldID, pkField.dataType, true, pkField.autoID,
                pkField.isPartitionKey⟩
              [.int64Val 1, .int64Val 2, .int64Val 3]))
            false 3) ∧
      (∀ (pkField : FieldSchema) (ids : IDs),
        planLimit (CreateRequeryPlan pkField ids) = Int.ofNat (idCount ids) ∧
          planIsCount (CreateRequeryPlan pkField ids) = false) ∧
      (∀ pkField : FieldSchema,
        CreateRequeryPlan pkField ⟨none⟩ =
          .query
            (some (.termExpr
              ⟨pkField.fieldID, pkField.dataType, true, pkField.autoID,
                pkField.isPartitionKey⟩
              []))
            false 0) := by
  refine ⟨fun pkField => rfl, ?_, fun pkField => rfl⟩
  intro pkField ids
  obtain ⟨idf⟩ := ids
  cases idf with
  | none => exact ⟨rfl, rfl⟩
  | some v =>
      cases v with
      | intId d => exact ⟨by simp [CreateRequeryPlan, planLimit, idCount], rfl⟩
      | strId d => exact ⟨by simp [CreateRequeryPlan, planLimit, idCount], rfl⟩

/-- C10: the requery predicate's column info sets the primary-key flag
to true unconditionally — for every field descriptor, marked primary or
not — while field id, data type, auto-id and partition-key flags are
copied from the descriptor. -/
theorem requery_pk_flag_unconditional (pkField : FieldSchema) (ids : IDs) :
    planColumnInfo (CreateRequeryPlan pkField ids) =
      some ⟨pkField.fieldID, pkField.dataType, true, pkField.autoID,
        pkField.isPartitionKey⟩ :=
  rfl

end PlanParserV2
